import Mathlib

/-!
Shallow embedding of `emotion_detector.py` from the AIMirror (ai-mood-tracker)
repository, together with proofs of its specified properties.

Modelling conventions:
- Python floats are modelled by exact rationals (ℚ).
- Python dicts of emotion scores are association lists `List (String × _)`
  (Python dicts preserve insertion order; keys are unique in actual runs).
- A raw backend score ("value coercible to a finite float" or not) is
  `Option ℚ`: `none` stands for a value that is not a finite number
  (NaN, infinity, or a non-numeric object).
- A pandas timestamp is an `Int` (nanoseconds since the epoch); its calendar
  date is the floor-division day index.  Parsing of timestamp strings
  (`pd.to_datetime(errors="coerce")`), per-cell numeric coercion of the
  confidence column, and `datetime.isoformat` are external library
  behaviour and are passed in as function parameters.
- The CSV log file is `Option (List String)`: `none` when the file does not
  exist, otherwise the list of its newline-terminated lines.
- Functions that raise exceptions are modelled with `Except String`.
-/

namespace EmotionDetector

/-! ### Data model -/

/-- Container for a single emotion prediction (`EmotionResult` dataclass). -/
structure EmotionResult where
  dominant_emotion : String
  confidence : ℚ
  emotions : List (String × ℚ)
  timestamp : Int
deriving DecidableEq

/-- Aggregated emotion metrics for a single day (`DailySummary` dataclass). -/
structure DailySummary where
  target_date : Int
  total_scans : Nat
  dominant_emotion : Option String
  distribution : List (String × ℚ)
  average_confidence : Option ℚ
deriving DecidableEq

/-- One valid row of the loaded log dataframe. -/
structure LogRow where
  timestamp : Int
  emotion : String
  confidence : ℚ
  source : String
deriving DecidableEq

/-! ### Normalization helpers -/

/-- Model of `_is_finite_number`: a raw value is usable iff it coerces to a
finite float, i.e. iff it is `some` rational. -/
def _is_finite_number (value : Option ℚ) : Bool :=
  value.isSome

/-- Model of `_normalize_emotions`: keep the finite entries, sum them, return
the empty mapping when the sum is nonpositive, else divide each value by the
sum. -/
def _normalize_emotions (emotions : List (String × Option ℚ)) : List (String × ℚ) :=
  let floats := (emotions.filter (fun p => _is_finite_number p.2)).filterMap
    (fun p => p.2.map (fun v => (p.1, v)))
  let total := (floats.map (fun p => p.2)).sum
  if total ≤ 0 then []
  else floats.map (fun p => (p.1, p.2 / total))

/-- Model of `_get_dominant`, i.e. Python `max(emotions, key=emotions.get)`:
the first key attaining the maximal value (Python `max` keeps the earlier
element on ties).  `max` on an empty dict raises; the code only calls this on
nonempty mappings, and the model returns `""` there. -/
def _get_dominant (emotions : List (String × ℚ)) : String :=
  match emotions with
  | [] => ""
  | p :: rest => (rest.foldl (fun best q => if best.2 < q.2 then q else best) p).1

/-! ### Backend selection and the analyzer -/

/-- Emotion inference wrapper state (`EmotionAnalyzer`). -/
structure EmotionAnalyzer where
  detector_backend : String
  enforce_detection : Bool
  backend : String
deriving DecidableEq

/-- Model of `EmotionAnalyzer._select_backend`: walk the priority list and
return the first of the two known backends whose availability flag is set. -/
def _select_backend (hasDeepface hasFer : Bool) : List String → Option String
  | [] => none
  | b :: rest =>
    if b == "deepface" && hasDeepface then some b
    else if b == "fer" && hasFer then some b
    else _select_backend hasDeepface hasFer rest

/-- Model of `EmotionAnalyzer.__init__`: select a backend from the priority
list; raise `ImportError` when none is available. -/
def EmotionAnalyzer.init (hasDeepface hasFer : Bool) (detector_backend : String)
    (enforce_detection : Bool) (backend_priority : List String) :
    Except String EmotionAnalyzer :=
  match _select_backend hasDeepface hasFer backend_priority with
  | none => Except.error
      "No emotion detection backend available. Install deepface or fer."
  | some b => Except.ok ⟨detector_backend, enforce_detection, b⟩

/-- Result of one `DeepFace.analyze` call after unwrapping the possible list:
the raw emotion score mapping and the optional `dominant_emotion` entry. -/
structure DeepfaceAnalysis where
  emotions : List (String × Option ℚ)
  dominant_emotion : Option String

/-- One FER detection: its raw `emotions` score mapping (`[]` also models a
missing or empty payload). -/
structure FerDetection where
  emotions : List (String × Option ℚ)

/-- Model of `EmotionAnalyzer._analyze_with_deepface` after the backend call:
`analysis = none` models a backend exception or an empty detection list. -/
def _analyze_with_deepface (analysis : Option DeepfaceAnalysis) (now : Int) :
    Option EmotionResult :=
  match analysis with
  | none => none
  | some a =>
    if a.emotions.isEmpty then none
    else
      let normalized := _normalize_emotions a.emotions
      if normalized.isEmpty then none
      else
        let dominant :=
          match a.dominant_emotion with
          | some d => if d = "" then _get_dominant normalized else d
          | none => _get_dominant normalized
        some ⟨dominant, (normalized.lookup dominant).getD 0, normalized, now⟩

/-- Model of `EmotionAnalyzer._analyze_with_fer` after the backend call:
`detections = none` models a backend exception. -/
def _analyze_with_fer (detections : Option (List FerDetection)) (now : Int) :
    Option EmotionResult :=
  match detections with
  | none => none
  | some [] => none
  | some (d :: _) =>
    if d.emotions.isEmpty then none
    else
      let normalized := _normalize_emotions d.emotions
      if normalized.isEmpty then none
      else
        let dominant := _get_dominant normalized
        some ⟨dominant, (normalized.lookup dominant).getD 0, normalized, now⟩

/-- Model of `EmotionAnalyzer.analyze`: `none` frame short-circuits to "no
result", otherwise dispatch on the configured backend.  The backends are
external collaborators, passed as oracles from frames to their raw outputs. -/
def analyze {Frame : Type} (a : EmotionAnalyzer)
    (deepfaceAnalysis : Frame → Option DeepfaceAnalysis)
    (ferDetections : Frame → Option (List FerDetection))
    (now : Int) (frame : Option Frame) : Except String (Option EmotionResult) :=
  match frame with
  | none => Except.ok none
  | some f =>
    if a.backend == "deepface" then Except.ok (_analyze_with_deepface (deepfaceAnalysis f) now)
    else if a.backend == "fer" then Except.ok (_analyze_with_fer (ferDetections f) now)
    else Except.error "Unsupported backend configured"

/-! ### Log writer -/

/-- The fixed CSV columns (`EMOTION_COLUMNS`). -/
def EMOTION_COLUMNS : List String := ["timestamp", "emotion", "confidence", "source"]

/-- The header row written to a fresh log file. -/
def headerLine : String := String.intercalate "," EMOTION_COLUMNS

/-- A log file: `none` when absent, else its list of lines. -/
abbrev LogFile := Option (List String)

/-- Model of `ensure_log_file`: create the file with the header row when it
does not exist; leave an existing file untouched. -/
def ensure_log_file (file : LogFile) : LogFile :=
  match file with
  | none => some [headerLine]
  | some lines => some lines

/-- Rendering of Python `f"{x:.4f}"` on an exact rational: round to four
decimal places and print with exactly four fraction digits. -/
def format4 (q : ℚ) : String :=
  let n : Int := round (q * 10000)
  let sign := if n < 0 then "-" else ""
  let fs := toString (n.natAbs % 10000)
  sign ++ toString (n.natAbs / 10000) ++ "." ++ ("".pushn '0' (4 - fs.length) ++ fs)

/-- The single CSV line appended for one result:
`timestamp,emotion,confidence(4 decimals),source`.  `iso` is
`datetime.isoformat`, an external library function. -/
def logLine (iso : Int → String) (result : EmotionResult) (source : String) : String :=
  iso result.timestamp ++ "," ++ result.dominant_emotion ++ ","
    ++ format4 result.confidence ++ "," ++ source

/-- Model of `append_log_entry`: ensure the file exists, then append exactly
one line. -/
def append_log_entry (iso : Int → String) (file : LogFile) (result : EmotionResult)
    (source : String) : LogFile :=
  match ensure_log_file file with
  | none => none
  | some lines => some (lines ++ [logLine iso result source])

/-! ### Log loading -/

/-- Parse one CSV data line into a row, mirroring `pd.read_csv` followed by
`to_datetime(errors="coerce")` and
`dropna(subset=["timestamp", "emotion", "confidence"])`: the row is dropped
when the timestamp does not parse (NaT), the emotion field is empty (NaN), or
the confidence cell is missing (NaN).  `parseTs` and `parseConf` are the
external per-cell parsers of the pandas library. -/
def parseRow (parseTs : String → Option Int) (parseConf : String → Option ℚ)
    (line : String) : Option LogRow :=
  match line.splitOn "," with
  | [t, e, c, s] =>
    match parseTs t, parseConf c with
    | some ts, some conf => if e = "" then none else some ⟨ts, e, conf, s⟩
    | _, _ => none
  | _ => none

/-- Model of `load_log_dataframe`: empty when the file is missing or empty;
otherwise skip the header line and keep the rows that survive `dropna`. -/
def load_log_dataframe (parseTs : String → Option Int) (parseConf : String → Option ℚ)
    (file : LogFile) : List LogRow :=
  match file with
  | none => []
  | some [] => []
  | some (_ :: rows) => rows.filterMap (parseRow parseTs parseConf)

/-! ### Daily aggregation -/

/-- Nanoseconds per day, for the calendar-date projection of a timestamp. -/
def nsPerDay : Int := 86400000000000

/-- The calendar date (as a day index) of a timestamp, i.e. `.dt.date`. -/
def dateOf (t : Int) : Int := Int.fdiv t nsPerDay

/-- Model of `Series.value_counts`: each distinct label with its count,
sorted by count in descending order.  The relative order of labels with equal
counts is implementation-defined in pandas; here the distinct labels are
`List.dedup` and the sort is stable. -/
def value_counts (l : List String) : List (String × Nat) :=
  (l.dedup.map (fun x => (x, l.count x))).mergeSort (fun p q => q.2 ≤ p.2)

/-- Model of `Series.idxmax`: the label of the first entry attaining the
maximal count (`none` on an empty series, where pandas raises). -/
def idxmax : List (String × Nat) → Option String
  | [] => none
  | p :: rest => some ((rest.foldl (fun best q => if best.2 < q.2 then q else best) p).1)

/-- Model of `get_daily_summary`: load the log, filter to the target date,
and aggregate counts, dominant label, distribution and mean confidence. -/
def get_daily_summary (parseTs : String → Option Int) (parseConf : String → Option ℚ)
    (file : LogFile) (target_date : Int) : DailySummary :=
  let df := load_log_dataframe parseTs parseConf file
  if df.isEmpty then ⟨target_date, 0, none, [], none⟩
  else
    let day_df := df.filter (fun r => dateOf r.timestamp == target_date)
    if day_df.isEmpty then ⟨target_date, 0, none, [], none⟩
    else
      let counts := value_counts (day_df.map (fun r => r.emotion))
      let total : Nat := (counts.map (fun p => p.2)).sum
      let distribution := counts.map (fun p => (p.1, (p.2 : ℚ) / (total : ℚ)))
      let avg := (day_df.map (fun r => r.confidence)).sum / (day_df.length : ℚ)
      ⟨target_date, total, idxmax counts, distribution, some avg⟩

/-- Model of `get_recent_entries`: all valid rows sorted by timestamp in
descending order, truncated to the first `limit`. -/
def get_recent_entries (parseTs : String → Option Int) (parseConf : String → Option ℚ)
    (file : LogFile) (limit : Nat) : List LogRow :=
  let df := load_log_dataframe parseTs parseConf file
  if df.isEmpty then df
  else (df.mergeSort (fun a b => b.timestamp ≤ a.timestamp)).take limit

/-! ### Derived notions used by the statements -/

/-- The intermediate `floats` mapping of `_normalize_emotions`: the input
entries whose value is a finite number, coerced to rationals. -/
def finiteFloats (emotions : List (String × Option ℚ)) : List (String × ℚ) :=
  (emotions.filter (fun p => _is_finite_number p.2)).filterMap
    (fun p => p.2.map (fun v => (p.1, v)))

/-- The log rows whose timestamp falls on the target calendar date; these are
the rows `get_daily_summary` aggregates. -/
def dayRows (parseTs : String → Option Int) (parseConf : String → Option ℚ)
    (file : LogFile) (target_date : Int) : List LogRow :=
  (load_log_dataframe parseTs parseConf file).filter
    (fun r => dateOf r.timestamp == target_date)

/-- Rounding of a rational to three decimal places, the precision the spec
uses to display normalized values. -/
def round3 (q : ℚ) : ℚ := ((round (q * 1000) : Int) : ℚ) / 1000

/-! ### Concrete instances of the external parsers, for evaluation -/

/-- Concrete timestamp formatter for evaluation: print the nanosecond count. -/
def iso0 : Int → String := fun t => toString t

/-- Concrete timestamp parser for evaluation, the inverse of `iso0`. -/
def tsParse0 : String → Option Int := String.toInt?

/-- Concrete confidence-cell parser for evaluation: the three four-decimal
strings the evaluation scenarios write, everything else treated as missing. -/
def confParse0 : String → Option ℚ := fun s =>
  if s = "0.5000" then some (1/2)
  else if s = "0.7000" then some (7/10)
  else if s = "0.9000" then some (9/10)
  else none

/-- Evaluation result value with the given timestamp, label and confidence. -/
def res0 (t : Int) (emo : String) (conf : ℚ) : EmotionResult := ⟨emo, conf, [], t⟩

/-- Evaluation log file: a fresh log with three entries appended. -/
def file3 : LogFile :=
  append_log_entry iso0
    (append_log_entry iso0
      (append_log_entry iso0 (ensure_log_file none) (res0 10 "happy" (1/2)) "webcam")
      (res0 20 "happy" (7/10)) "webcam")
    (res0 30 "sad" (9/10)) "webcam"

/-! ### General lemmas -/

/-- Unfolding equation for `_normalize_emotions` in terms of `finiteFloats`. -/
theorem _normalize_emotions_eq (emotions : List (String × Option ℚ)) :
    _normalize_emotions emotions =
      if ((finiteFloats emotions).map (fun p => p.2)).sum ≤ 0 then []
      else (finiteFloats emotions).map
        (fun p => (p.1, p.2 / ((finiteFloats emotions).map (fun q => q.2)).sum)) := rfl

/-- Summing a pointwise division over a list divides the sum. -/
theorem sum_map_div (l : List (String × ℚ)) (t : ℚ) :
    (l.map (fun p => p.2 / t)).sum = (l.map (fun p => p.2)).sum / t := by
  induction l with
  | nil => simp
  | cons p rest ih => simp [ih, add_div]

/-- The keys of `finiteFloats` are the keys of the finite entries. -/
theorem finiteFloats_map_fst (emotions : List (String × Option ℚ)) :
    (finiteFloats emotions).map (fun p => p.1)
      = (emotions.filter (fun p => _is_finite_number p.2)).map (fun p => p.1) := by
  induction emotions with
  | nil => rfl
  | cons p rest ih =>
    cases h : p.2 with
    | none => simpa [finiteFloats, _is_finite_number, h] using ih
    | some v => simpa [finiteFloats, _is_finite_number, h] using ih

/-- Lifting an exact mapping back to raw scores leaves `finiteFloats` the
identity. -/
theorem finiteFloats_map_some (l : List (String × ℚ)) :
    finiteFloats (l.map (fun p => (p.1, some p.2))) = l := by
  induction l with
  | nil => rfl
  | cons p rest ih => simp [finiteFloats, _is_finite_number] at ih ⊢; exact ih

/-! ### C4: ensure_log_file -/

/-- C4: `ensure_log_file` creates exactly the header row
`timestamp,emotion,confidence,source` on a missing file, leaves an existing
file's contents unchanged, and is idempotent. -/
theorem C4_ensure_log_file_idempotent :
    ensure_log_file none = some [headerLine] ∧
    headerLine = "timestamp,emotion,confidence,source" ∧
    (∀ lines : List String, ensure_log_file (some lines) = some lines) ∧
    (∀ file : LogFile, ensure_log_file (ensure_log_file file) = ensure_log_file file) := by
  refine ⟨rfl, rfl, fun lines => rfl, fun file => ?_⟩
  cases file <;> rfl

/-! ### C5: append_log_entry -/

/-- C5: on an existing log file, `append_log_entry` appends exactly one line
of the form `timestamp,emotion,confidence(4 decimals),source` and keeps every
earlier line unchanged and in place. -/
theorem C5_append_log_entry (iso : Int → String) (lines : List String)
    (result : EmotionResult) (source : String) :
    append_log_entry iso (some lines) result source =
      some (lines ++ [iso result.timestamp ++ "," ++ result.dominant_emotion ++ ","
        ++ format4 result.confidence ++ "," ++ source]) := rfl

/-! ### C3: backend selection -/

/-- C3: `_select_backend` returns the first name in priority order whose
availability flag is set (and `none` otherwise), and constructing the
analyzer fails with the backend-unavailable error exactly when the selection
is `none`. -/
theorem C3_backend_selection (hD hF : Bool) (priority : List String)
    (db : String) (ed : Bool) :
    _select_backend hD hF priority
        = priority.find? (fun b => (b == "deepface" && hD) || (b == "fer" && hF))
    ∧ (_select_backend hD hF priority = none →
        EmotionAnalyzer.init hD hF db ed priority = Except.error
          "No emotion detection backend available. Install deepface or fer.")
    ∧ (∀ b, _select_backend hD hF priority = some b →
        EmotionAnalyzer.init hD hF db ed priority = Except.ok ⟨db, ed, b⟩) := by
  refine ⟨?_, ?_, ?_⟩
  · induction priority with
    | nil => rfl
    | cons b rest ih =>
      by_cases h1 : (b == "deepface" && hD) = true
      · simp [_select_backend, List.find?, h1]
      · by_cases h2 : (b == "fer" && hF) = true
        · simp [_select_backend, List.find?, h1, h2]
        · simp [_select_backend, List.find?, h1, h2, ih]
  · intro h
    unfold EmotionAnalyzer.init
    rw [h]
  · intro b h
    unfold EmotionAnalyzer.init
    rw [h]

/-- C3 witness: with both availability flags cleared, selection over the
default priority list returns `none`, and construction raises. -/
theorem C3_backend_selection_witness :
    _select_backend false false ["deepface", "fer"] = none ∧
    EmotionAnalyzer.init false false "opencv" false ["deepface", "fer"]
      = Except.error
        "No emotion detection backend available. Install deepface or fer." := by
  refine ⟨rfl, ?_⟩
  exact (C3_backend_selection false false ["deepface", "fer"] "opencv" false).2.1 rfl

/-! ### C8: the 0.2/0.1 example -/

/-- C8 counterexample: normalizing `{happy: 0.2, sad: 0.1}` does not give
`0.667` for `happy`; the exact value is `2/3`. -/
theorem C8_counterexample :
    (_normalize_emotions [("happy", some (2/10)), ("sad", some (1/10))]).lookup "happy"
        = some ((2 : ℚ)/3) ∧
    ((2 : ℚ)/3) ≠ 667/1000 := by
  constructor
  · simp [_normalize_emotions, _is_finite_number]
    norm_num
  · norm_num

/-- C8 amended: normalizing `{happy: 0.2, sad: 0.1}` yields exactly
`{happy: 2/3, sad: 1/3}`, whose values round to `0.667` and `0.333` at three
decimals, and the dominant label of the normalized output is `happy`. -/
theorem C8_normalize_example_amended :
    _normalize_emotions [("happy", some (2/10)), ("sad", some (1/10))]
        = [("happy", 2/3), ("sad", 1/3)] ∧
    round3 (2/3) = 667/1000 ∧ round3 (1/3) = 333/1000 ∧
    _get_dominant (_normalize_emotions [("happy", some (2/10)), ("sad", some (1/10))])
        = "happy" := by
  have h1 : _normalize_emotions [("happy", some (2/10)), ("sad", some (1/10))]
      = [("happy", 2/3), ("sad", 1/3)] := by
    simp [_normalize_emotions, _is_finite_number]
    norm_num
  refine ⟨h1, ?_, ?_, ?_⟩
  · simp [round3, round_eq]
    norm_num
  · simp [round3, round_eq]
    norm_num
  · rw [h1]
    simp [_get_dominant]
    norm_num

/-! ### C2: normalization -/

/-- C2: `_normalize_emotions` keeps exactly the finite entries, returns the
empty mapping when their sum is nonpositive, otherwise divides each kept
value by the sum; and when all kept values are nonnegative and one is
positive, the output sums to exactly 1. -/
theorem C2_normalize_unit_sum (emotions : List (String × Option ℚ)) :
    (((finiteFloats emotions).map (fun p => p.2)).sum ≤ 0 →
        _normalize_emotions emotions = []) ∧
    (0 < ((finiteFloats emotions).map (fun p => p.2)).sum →
        _normalize_emotions emotions = (finiteFloats emotions).map
          (fun p => (p.1, p.2 / ((finiteFloats emotions).map (fun q => q.2)).sum))) ∧
    ((∀ p ∈ finiteFloats emotions, 0 ≤ p.2) →
      (∃ p ∈ finiteFloats emotions, 0 < p.2) →
      ((_normalize_emotions emotions).map (fun p => p.2)).sum = 1) := by
  refine ⟨?_, ?_, ?_⟩
  · intro h
    rw [_normalize_emotions_eq, if_pos h]
  · intro h
    rw [_normalize_emotions_eq, if_neg (not_le.mpr h)]
  · rintro hnn ⟨p, hp, hpos⟩
    have hmem : p.2 ∈ (finiteFloats emotions).map (fun p => p.2) :=
      List.mem_map_of_mem _ hp
    have hle : ∀ x ∈ (finiteFloats emotions).map (fun p => p.2), 0 ≤ x := by
      intro x hx
      rcases List.mem_map.mp hx with ⟨q, hq, rfl⟩
      exact hnn q hq
    have htot : 0 < ((finiteFloats emotions).map (fun p => p.2)).sum :=
      lt_of_lt_of_le hpos (List.single_le_sum hle _ hmem)
    rw [_normalize_emotions_eq, if_neg (not_le.mpr htot), List.map_map]
    show ((finiteFloats emotions).map
      (fun p => p.2 / ((finiteFloats emotions).map (fun q => q.2)).sum)).sum = 1
    rw [sum_map_div]
    exact div_self (ne_of_gt (by simpa using htot))

/-- C2 witness: a raw mapping with one non-finite entry and positive finite
entries has nonnegative kept values, a positive one, and a unit-sum output. -/
theorem C2_normalize_unit_sum_witness :
    ((_normalize_emotions [("happy", some 1), ("junk", (none : Option ℚ)),
        ("sad", some 3)]).map (fun p => p.2)).sum = 1 := by
  apply (C2_normalize_unit_sum _).2.2
  · intro p hp
    simp [finiteFloats, _is_finite_number] at hp
    rcases hp with h | h <;> rw [h] <;> norm_num
  · refine ⟨("happy", 1), ?_, by norm_num⟩
    simp [finiteFloats, _is_finite_number]

/-! ### C10: normalization is idempotent -/

/-- Normalizing an exact probability distribution lifted back to raw scores
returns it unchanged. -/
theorem _normalize_of_unit_sum (l : List (String × ℚ))
    (hs : (l.map (fun p => p.2)).sum = 1) :
    _normalize_emotions (l.map (fun p => (p.1, some p.2))) = l := by
  rw [_normalize_emotions_eq, finiteFloats_map_some, hs, if_neg (by norm_num)]
  simp [div_one]

/-- C10: when normalization returns a nonempty mapping, applying it again to
its own output returns that output exactly, and the output keys are exactly
the input keys carrying finite values. -/
theorem C10_normalize_idempotent (emotions : List (String × Option ℚ))
    (h : _normalize_emotions emotions ≠ []) :
    _normalize_emotions ((_normalize_emotions emotions).map (fun p => (p.1, some p.2)))
      = _normalize_emotions emotions ∧
    (_normalize_emotions emotions).map (fun p => p.1)
      = (emotions.filter (fun p => _is_finite_number p.2)).map (fun p => p.1) := by
  have htpos : 0 < ((finiteFloats emotions).map (fun p => p.2)).sum := by
    by_contra hc
    push_neg at hc
    exact h (by rw [_normalize_emotions_eq, if_pos hc])
  have hN : _normalize_emotions emotions = (finiteFloats emotions).map
      (fun p => (p.1, p.2 / ((finiteFloats emotions).map (fun q => q.2)).sum)) := by
    rw [_normalize_emotions_eq, if_neg (not_le.mpr htpos)]
  constructor
  · rw [hN]
    apply _normalize_of_unit_sum
    rw [List.map_map]
    show ((finiteFloats emotions).map
      (fun p => p.2 / ((finiteFloats emotions).map (fun q => q.2)).sum)).sum = 1
    rw [sum_map_div]
    exact div_self (ne_of_gt (by simpa using htpos))
  · rw [hN, List.map_map]
    exact finiteFloats_map_fst emotions

/-- C10 witness: a concrete two-label mapping with nonempty normalization is
a fixed point of renormalization and keeps its finite keys. -/
theorem C10_normalize_idempotent_witness :
    _normalize_emotions [("happy", some (2:ℚ)), ("sad", some 1)] ≠ [] ∧
    _normalize_emotions ((_normalize_emotions [("happy", some (2:ℚ)), ("sad", some 1)]).map
        (fun p => (p.1, some p.2)))
      = _normalize_emotions [("happy", some (2:ℚ)), ("sad", some 1)] ∧
    (_normalize_emotions [("happy", some (2:ℚ)), ("sad", some 1)]).map (fun p => p.1)
      = ([("happy", some (2:ℚ)), ("sad", some 1)].filter
          (fun p => _is_finite_number p.2)).map (fun p => p.1) := by
  have hval : _normalize_emotions [("happy", some (2:ℚ)), ("sad", some 1)]
      = [("happy", 2/3), ("sad", 1/3)] := by
    simp [_normalize_emotions, _is_finite_number]
    norm_num
  have hne : _normalize_emotions [("happy", some (2:ℚ)), ("sad", some 1)] ≠ [] := by
    rw [hval]
    simp
  have h := C10_normalize_idempotent _ hne
  exact ⟨hne, h.1, h.2⟩

/-! ### C9: analyze on an absent frame -/

/-- Backends selected by `_select_backend` are one of the two known names. -/
theorem _select_backend_mem (hD hF : Bool) : ∀ (priority : List String) (b : String),
    _select_backend hD hF priority = some b → b = "deepface" ∨ b = "fer" := by
  intro priority
  induction priority with
  | nil =>
    intro b h
    simp [_select_backend] at h
  | cons x rest ih =>
    intro b h
    simp only [_select_backend] at h
    by_cases h1 : (x == "deepface" && hD) = true
    · rw [if_pos h1] at h
      obtain rfl : x = b := by injection h
      left
      exact eq_of_beq (Bool.and_elim_left h1)
    · rw [if_neg h1] at h
      by_cases h2 : (x == "fer" && hF) = true
      · rw [if_pos h2] at h
        obtain rfl : x = b := by injection h
        right
        exact eq_of_beq (Bool.and_elim_left h2)
      · rw [if_neg h2] at h
        exact ih b h

/-- C9: for every successfully constructed analyzer, analyzing a `none`
frame returns `Except.ok none` rather than an error, the same outcome as a
frame in which the backend detects no face. -/
theorem C9_analyze_none_frame {Frame : Type} (hD hF : Bool) (db : String) (ed : Bool)
    (priority : List String) (a : EmotionAnalyzer)
    (h : EmotionAnalyzer.init hD hF db ed priority = Except.ok a)
    (deepfaceOracle : Frame → Option DeepfaceAnalysis)
    (ferOracle : Frame → Option (List FerDetection)) (now : Int) :
    analyze a deepfaceOracle ferOracle now none = Except.ok none ∧
    ∀ f : Frame, deepfaceOracle f = none → ferOracle f = none →
      analyze a deepfaceOracle ferOracle now (some f) = Except.ok none := by
  constructor
  · rfl
  · intro f hdf hfer
    have hb : _select_backend hD hF priority = some a.backend := by
      unfold EmotionAnalyzer.init at h
      cases hs : _select_backend hD hF priority with
      | none => rw [hs] at h; exact absurd h (by simp)
      | some b =>
        rw [hs] at h
        obtain rfl : (⟨db, ed, b⟩ : EmotionAnalyzer) = a := by injection h
        rfl
    rcases _select_backend_mem hD hF priority a.backend hb with hback | hback
    · simp [analyze, hback, hdf, _analyze_with_deepface]
    · simp [analyze, hback, hfer, _analyze_with_fer]

/-- C9 witness: a concrete deepface-backed analyzer maps the absent frame and
a no-detection frame to `Except.ok none`. -/
theorem C9_analyze_none_frame_witness :
    analyze (⟨"opencv", false, "deepface"⟩ : EmotionAnalyzer)
        (fun _ : Unit => (none : Option DeepfaceAnalysis)) (fun _ => none) 0 none
      = Except.ok none ∧
    analyze (⟨"opencv", false, "deepface"⟩ : EmotionAnalyzer)
        (fun _ : Unit => (none : Option DeepfaceAnalysis)) (fun _ => none) 0 (some ())
      = Except.ok none := by
  have h := C9_analyze_none_frame true false "opencv" false ["deepface", "fer"]
    ⟨"opencv", false, "deepface"⟩ rfl
    (fun _ : Unit => (none : Option DeepfaceAnalysis)) (fun _ => none) 0
  exact ⟨h.1, h.2 () rfl rfl⟩

/-! ### C7: malformed rows are dropped -/

/-- C7: a data line whose timestamp does not parse, whose emotion field is
empty, or whose confidence cell is missing parses to no row, and inserting it
anywhere in a log changes neither the loaded rows, nor any daily summary, nor
any recent-entries result. -/
theorem C7_malformed_rows_dropped (parseTs : String → Option Int)
    (parseConf : String → Option ℚ) (t e c s bad : String)
    (hsplit : bad.splitOn "," = [t, e, c, s])
    (hbad : parseTs t = none ∨ e = "" ∨ parseConf c = none)
    (hdr : String) (r1 r2 : List String) (td : Int) (lim : Nat) :
    parseRow parseTs parseConf bad = none ∧
    load_log_dataframe parseTs parseConf (some (hdr :: (r1 ++ bad :: r2)))
      = load_log_dataframe parseTs parseConf (some (hdr :: (r1 ++ r2))) ∧
    get_daily_summary parseTs parseConf (some (hdr :: (r1 ++ bad :: r2))) td
      = get_daily_summary parseTs parseConf (some (hdr :: (r1 ++ r2))) td ∧
    get_recent_entries parseTs parseConf (some (hdr :: (r1 ++ bad :: r2))) lim
      = get_recent_entries parseTs parseConf (some (hdr :: (r1 ++ r2))) lim := by
  have hrow : parseRow parseTs parseConf bad = none := by
    simp only [parseRow, hsplit]
    rcases hbad with h | h | h
    · rw [h]
    · cases parseTs t <;> cases parseConf c <;> simp [h]
    · rw [h]
      cases parseTs t <;> rfl
  have hload : load_log_dataframe parseTs parseConf (some (hdr :: (r1 ++ bad :: r2)))
      = load_log_dataframe parseTs parseConf (some (hdr :: (r1 ++ r2))) := by
    simp [load_log_dataframe, List.filterMap_append, List.filterMap_cons, hrow]
  refine ⟨hrow, hload, ?_, ?_⟩
  · unfold get_daily_summary
    rw [hload]
  · unfold get_recent_entries
    rw [hload]

/-- C7 witness: a row with an unparseable timestamp is dropped: the summary
and the recent entries of a log containing it equal those of the log without
it. -/
theorem C7_malformed_rows_dropped_witness :
    parseRow tsParse0 confParse0 "garbage,happy,0.5000,webcam" = none ∧
    get_daily_summary tsParse0 confParse0
        (some [headerLine, "10,happy,0.5000,webcam", "garbage,happy,0.5000,webcam"]) 0
      = get_daily_summary tsParse0 confParse0
        (some [headerLine, "10,happy,0.5000,webcam"]) 0 ∧
    get_recent_entries tsParse0 confParse0
        (some [headerLine, "10,happy,0.5000,webcam", "garbage,happy,0.5000,webcam"]) 5
      = get_recent_entries tsParse0 confParse0
        (some [headerLine, "10,happy,0.5000,webcam"]) 5 := by
  have h := C7_malformed_rows_dropped tsParse0 confParse0
    "garbage" "happy" "0.5000" "webcam" "garbage,happy,0.5000,webcam"
    (by with_unfolding_all rfl) (Or.inl (by with_unfolding_all rfl))
    headerLine ["10,happy,0.5000,webcam"] [] 0 5
  exact ⟨h.1, h.2.2.1, h.2.2.2⟩

/-! ### C6: recent entries -/

/-- C6: `get_recent_entries` returns an empty result on an empty or entirely
malformed log, and in general a descending-by-timestamp list of
`min limit n` of the `n` valid rows that is a sub-permutation of the valid
rows dominating everything it leaves out. -/
theorem C6_get_recent_entries (parseTs : String → Option Int)
    (parseConf : String → Option ℚ) (file : LogFile) (limit : Nat) :
    (load_log_dataframe parseTs parseConf file = [] →
        get_recent_entries parseTs parseConf file limit = []) ∧
    (get_recent_entries parseTs parseConf file limit).length
        = min limit (load_log_dataframe parseTs parseConf file).length ∧
    List.Pairwise (fun a b : LogRow => b.timestamp ≤ a.timestamp)
        (get_recent_entries parseTs parseConf file limit) ∧
    ∃ rest : List LogRow,
      List.Perm (load_log_dataframe parseTs parseConf file)
        (get_recent_entries parseTs parseConf file limit ++ rest) ∧
      ∀ a ∈ get_recent_entries parseTs parseConf file limit, ∀ b ∈ rest,
        b.timestamp ≤ a.timestamp := by
  by_cases hempty : load_log_dataframe parseTs parseConf file = []
  · have hres : get_recent_entries parseTs parseConf file limit = [] := by
      unfold get_recent_entries
      rw [hempty]
      rfl
    refine ⟨fun _ => hres, ?_, ?_, ⟨[], ?_, ?_⟩⟩
    · rw [hres, hempty]
      simp
    · rw [hres]
      exact List.Pairwise.nil
    · rw [hres, hempty]
      simp
    · intro a ha
      rw [hres] at ha
      cases ha
  · have hie : (load_log_dataframe parseTs parseConf file).isEmpty = false := by
      cases hl : load_log_dataframe parseTs parseConf file
      · exact absurd hl hempty
      · rfl
    have hres : get_recent_entries parseTs parseConf file limit
        = ((load_log_dataframe parseTs parseConf file).mergeSort
            (fun a b => b.timestamp ≤ a.timestamp)).take limit := by
      simp only [get_recent_entries, hie]
      rfl
    have hperm : List.Perm ((load_log_dataframe parseTs parseConf file).mergeSort
        (fun a b => b.timestamp ≤ a.timestamp)) (load_log_dataframe parseTs parseConf file) :=
      List.mergeSort_perm _ _
    have hpair0 := @List.sorted_mergeSort LogRow
      (fun a b : LogRow => decide (b.timestamp ≤ a.timestamp))
      (by
        intro a b c hab hbc
        simp only [decide_eq_true_eq] at hab hbc ⊢
        exact le_trans hbc hab)
      (by
        intro a b
        simp only [Bool.or_eq_true, decide_eq_true_eq]
        exact le_total _ _)
      (load_log_dataframe parseTs parseConf file)
    have hpair : List.Pairwise (fun a b : LogRow => b.timestamp ≤ a.timestamp)
        ((load_log_dataframe parseTs parseConf file).mergeSort
          (fun a b => b.timestamp ≤ a.timestamp)) := by
      refine hpair0.imp ?_
      intro a b hab
      simpa using hab
    refine ⟨fun hc => absurd hc hempty, ?_, ?_, ?_⟩
    · rw [hres, List.length_take, hperm.length_eq]
    · rw [hres]
      exact List.Pairwise.sublist (List.take_sublist _ _) hpair
    · refine ⟨((load_log_dataframe parseTs parseConf file).mergeSort
          (fun a b => b.timestamp ≤ a.timestamp)).drop limit, ?_, ?_⟩
      · rw [hres, List.take_append_drop]
        exact hperm.symm
      · intro a ha b hb
        rw [hres] at ha
        have hsplit : List.Pairwise (fun a b : LogRow => b.timestamp ≤ a.timestamp)
            (((load_log_dataframe parseTs parseConf file).mergeSort
                (fun a b => b.timestamp ≤ a.timestamp)).take limit ++
              ((load_log_dataframe parseTs parseConf file).mergeSort
                (fun a b => b.timestamp ≤ a.timestamp)).drop limit) := by
          rw [List.take_append_drop]
          exact hpair
        exact (List.pairwise_append.mp hsplit).2.2 a ha b hb

/-- C6 witness: an empty log yields no entries; after appending three entries
with distinct timestamps, a limit of two returns exactly the two most recent,
newest first, of the expected length and sortedness. -/
theorem C6_get_recent_entries_witness :
    get_recent_entries tsParse0 confParse0 (some []) 5 = [] ∧
    (get_recent_entries tsParse0 confParse0 file3 2).length
        = min 2 (load_log_dataframe tsParse0 confParse0 file3).length ∧
    List.Pairwise (fun a b : LogRow => b.timestamp ≤ a.timestamp)
        (get_recent_entries tsParse0 confParse0 file3 2) ∧
    get_recent_entries tsParse0 confParse0 file3 2
        = [⟨30, "sad", 9/10, "webcam"⟩, ⟨20, "happy", 7/10, "webcam"⟩] := by
  refine ⟨(C6_get_recent_entries tsParse0 confParse0 (some []) 5).1 rfl,
    (C6_get_recent_entries tsParse0 confParse0 file3 2).2.1,
    (C6_get_recent_entries tsParse0 confParse0 file3 2).2.2.1,
    by with_unfolding_all rfl⟩

/-! ### C1: daily summary -/

/-- The counts list is a permutation of the distinct labels paired with their
counts. -/
theorem value_counts_perm (l : List String) :
    List.Perm (value_counts l) (l.dedup.map (fun x => (x, l.count x))) :=
  List.mergeSort_perm _ _

/-- The counts in `value_counts` sum to the number of observations. -/
theorem value_counts_total (l : List String) :
    ((value_counts l).map (fun p => p.2)).sum = l.length := by
  rw [((value_counts_perm l).map (fun p => p.2)).sum_eq, List.map_map]
  show (l.dedup.map (fun x => l.count x)).sum = l.length
  exact List.sum_map_count_dedup_eq_length l

/-- A nonempty observation list has a nonempty counts list. -/
theorem value_counts_ne_nil {l : List String} (h : l ≠ []) : value_counts l ≠ [] := by
  intro hc
  have hlen := (value_counts_perm l).length_eq
  rw [hc, List.length_map] at hlen
  simp only [List.length_nil] at hlen
  exact h ((List.dedup_eq_nil l).mp (List.length_eq_zero.mp hlen.symm))

/-- The keys of `value_counts` are a permutation of the distinct labels. -/
theorem value_counts_keys_perm (l : List String) :
    List.Perm ((value_counts l).map (fun p => p.1)) l.dedup := by
  have h := (value_counts_perm l).map (fun p => p.1)
  rw [List.map_map] at h
  have h2 : l.dedup.map ((fun p : String × Nat => p.1) ∘ fun x => (x, l.count x))
      = l.dedup := by
    have hfun : ((fun p : String × Nat => p.1) ∘ fun x => (x, l.count x))
        = fun x => x := rfl
    rw [hfun]
    exact List.map_id _
  rwa [h2] at h

/-- The keys of `value_counts` contain no duplicates. -/
theorem value_counts_keys_nodup (l : List String) :
    ((value_counts l).map (fun p => p.1)).Nodup :=
  ((value_counts_keys_perm l).nodup_iff).mpr (List.nodup_dedup l)

/-- Every observed label appears in `value_counts` with its count. -/
theorem mem_value_counts {l : List String} {e : String} (he : e ∈ l) :
    (e, l.count e) ∈ value_counts l :=
  (value_counts_perm l).mem_iff.mpr
    (List.mem_map_of_mem _ (List.mem_dedup.mpr he))

/-- Every entry of `value_counts` is an observed label with its count. -/
theorem of_mem_value_counts {l : List String} {p : String × Nat}
    (hp : p ∈ value_counts l) : p.1 ∈ l ∧ p.2 = l.count p.1 := by
  have hm := (value_counts_perm l).mem_iff.mp hp
  rcases List.mem_map.mp hm with ⟨x, hx, he⟩
  cases he
  exact ⟨List.mem_dedup.mp hx, rfl⟩

/-- The scanning maximum of a fold lies in the list and dominates it. -/
theorem foldl_max_spec (p : String × Nat) (rest : List (String × Nat)) :
    (rest.foldl (fun best q => if best.2 < q.2 then q else best) p) ∈ p :: rest ∧
    ∀ q ∈ p :: rest,
      q.2 ≤ (rest.foldl (fun best q => if best.2 < q.2 then q else best) p).2 := by
  induction rest generalizing p with
  | nil =>
    refine ⟨List.mem_cons_self _ _, ?_⟩
    intro q hq
    rcases List.mem_cons.mp hq with rfl | hq2
    · exact le_refl _
    · cases hq2
  | cons r rest ih =>
    obtain ⟨hm, hge⟩ := ih (if p.2 < r.2 then r else p)
    simp only [List.foldl_cons]
    constructor
    · rcases List.mem_cons.mp hm with he | hm2
      · rw [he]
        by_cases hc : p.2 < r.2
        · simp [hc]
        · simp [hc]
      · exact List.mem_cons_of_mem _ (List.mem_cons_of_mem _ hm2)
    · intro q hq
      rcases List.mem_cons.mp hq with rfl | hq2
      · refine le_trans ?_ (hge _ (List.mem_cons_self _ _))
        by_cases hc : q.2 < r.2
        · simp only [if_pos hc]
          exact le_of_lt hc
        · simp only [if_neg hc]
          exact le_refl _
      rcases List.mem_cons.mp hq2 with rfl | hq3
      · refine le_trans ?_ (hge _ (List.mem_cons_self _ _))
        by_cases hc : p.2 < q.2
        · simp only [if_pos hc]
          exact le_refl _
        · simp only [if_neg hc]
          exact le_of_not_lt hc
      · exact hge _ (List.mem_cons_of_mem _ hq3)

/-- What `idxmax` returns: the key of an entry whose value dominates the
whole series. -/
theorem idxmax_spec (counts : List (String × Nat)) (d : String)
    (h : idxmax counts = some d) :
    ∃ n, (d, n) ∈ counts ∧ ∀ q ∈ counts, q.2 ≤ n := by
  cases counts with
  | nil => simp [idxmax] at h
  | cons p rest =>
    simp only [idxmax, Option.some.injEq] at h
    obtain ⟨hm, hge⟩ := foldl_max_spec p rest
    refine ⟨(rest.foldl (fun best q => if best.2 < q.2 then q else best) p).2, ?_, hge⟩
    rw [← h]
    simpa using hm

/-- Association-list lookup finds a member pair when keys are unique. -/
theorem lookup_of_mem_of_nodup_keys {β : Type} {l : List (String × β)}
    (hnd : (l.map (fun p => p.1)).Nodup) {a : String} {b : β} (hm : (a, b) ∈ l) :
    l.lookup a = some b := by
  induction l with
  | nil => cases hm
  | cons p rest ih =>
    obtain ⟨k, v⟩ := p
    rw [List.map_cons] at hnd
    have hnd2 := List.nodup_cons.mp hnd
    rcases List.mem_cons.mp hm with he | hm2
    · cases he
      simp [List.lookup]
    · have hne : a ≠ k := by
        intro hc
        exact hnd2.1 (by
          rw [← hc]
          exact List.mem_map_of_mem (fun p => p.1) hm2)
      have hbeq : (a == k) = false := beq_eq_false_iff_ne.mpr hne
      simp only [List.lookup, hbeq]
      exact ih hnd2.2 hm2

/-- Looking up an occurring label in the distribution built from
`value_counts` yields its count divided by the given denominator. -/
theorem lookup_distribution (l : List String) (c : ℚ) {e : String} (he : e ∈ l) :
    ((value_counts l).map (fun p => (p.1, (p.2 : ℚ) / c))).lookup e
      = some ((l.count e : ℚ) / c) := by
  apply lookup_of_mem_of_nodup_keys
  · rw [List.map_map]
    exact value_counts_keys_nodup l
  · exact List.mem_map_of_mem _ (mem_value_counts he)

/-- Unfolding of `get_daily_summary` in the case where some rows match the
target date. -/
theorem get_daily_summary_eq (parseTs : String → Option Int)
    (parseConf : String → Option ℚ) (file : LogFile) (td : Int)
    (h : dayRows parseTs parseConf file td ≠ []) :
    get_daily_summary parseTs parseConf file td =
      ⟨td,
        ((value_counts ((dayRows parseTs parseConf file td).map (fun r => r.emotion))).map
          (fun p => p.2)).sum,
        idxmax (value_counts ((dayRows parseTs parseConf file td).map (fun r => r.emotion))),
        (value_counts ((dayRows parseTs parseConf file td).map (fun r => r.emotion))).map
          (fun p => (p.1, (p.2 : ℚ) /
            (((((value_counts ((dayRows parseTs parseConf file td).map
              (fun r => r.emotion))).map (fun p => p.2)).sum : ℕ)) : ℚ))),
        some (((dayRows parseTs parseConf file td).map (fun r => r.confidence)).sum
          / ((dayRows parseTs parseConf file td).length : ℚ))⟩ := by
  unfold dayRows at h
  have hdf : load_log_dataframe parseTs parseConf file ≠ [] := by
    intro h0
    apply h
    rw [h0]
    rfl
  simp only [get_daily_summary]
  split
  next h1 => exact absurd (by simpa using h1) hdf
  next h1 =>
    split
    next h2 => exact absurd (by simpa using h2) h
    next h2 => rfl

/-- C1: when no valid row matches the target date the summary is
`(0, none, empty, none)`; otherwise `total_scans` is the number of matching
rows, the dominant emotion is a most frequent label among them, the
distribution maps each occurring label to its frequency divided by the
total, and the average confidence is the arithmetic mean of the matching
confidences. -/
theorem C1_get_daily_summary (parseTs : String → Option Int)
    (parseConf : String → Option ℚ) (file : LogFile) (td : Int) :
    (dayRows parseTs parseConf file td = [] →
      get_daily_summary parseTs parseConf file td = ⟨td, 0, none, [], none⟩) ∧
    (dayRows parseTs parseConf file td ≠ [] →
      (get_daily_summary parseTs parseConf file td).total_scans
          = (dayRows parseTs parseConf file td).length ∧
      (∃ d, (get_daily_summary parseTs parseConf file td).dominant_emotion = some d ∧
        d ∈ (dayRows parseTs parseConf file td).map (fun r => r.emotion) ∧
        ∀ e ∈ (dayRows parseTs parseConf file td).map (fun r => r.emotion),
          ((dayRows parseTs parseConf file td).map (fun r => r.emotion)).count e
            ≤ ((dayRows parseTs parseConf file td).map (fun r => r.emotion)).count d) ∧
      (∀ e ∈ (dayRows parseTs parseConf file td).map (fun r => r.emotion),
        ((get_daily_summary parseTs parseConf file td).distribution).lookup e
          = some ((((dayRows parseTs parseConf file td).map (fun r => r.emotion)).count e : ℚ)
              / ((dayRows parseTs parseConf file td).length : ℚ))) ∧
      (get_daily_summary parseTs parseConf file td).average_confidence
          = some (((dayRows parseTs parseConf file td).map (fun r => r.confidence)).sum
              / ((dayRows parseTs parseConf file td).length : ℚ))) := by
  constructor
  · intro h0
    have h1 := h0
    unfold dayRows at h1
    simp only [get_daily_summary]
    split
    next => rfl
    next =>
      split
      next => rfl
      next h2 => exact absurd (by simpa using h1) (by simpa using h2)
  · intro h0
    rw [get_daily_summary_eq parseTs parseConf file td h0]
    have hems_ne : (dayRows parseTs parseConf file td).map (fun r => r.emotion) ≠ [] := by
      simpa [List.map_eq_nil_iff] using h0
    refine ⟨?_, ?_, ?_, rfl⟩
    · show ((value_counts ((dayRows parseTs parseConf file td).map
          (fun r => r.emotion))).map (fun p => p.2)).sum
        = (dayRows parseTs parseConf file td).length
      rw [value_counts_total]
      exact List.length_map _ _
    · have hvne : value_counts ((dayRows parseTs parseConf file td).map
          (fun r => r.emotion)) ≠ [] := value_counts_ne_nil hems_ne
      have hidx : ∃ d, idxmax (value_counts ((dayRows parseTs parseConf file td).map
          (fun r => r.emotion))) = some d := by
        cases hvc : value_counts ((dayRows parseTs parseConf file td).map
            (fun r => r.emotion)) with
        | nil => exact absurd hvc hvne
        | cons p rest => exact ⟨_, rfl⟩
      obtain ⟨d, hd⟩ := hidx
      obtain ⟨n, hmem, hge⟩ := idxmax_spec _ d hd
      obtain ⟨hdin0, hn0⟩ := of_mem_value_counts hmem
      have hdin : d ∈ (dayRows parseTs parseConf file td).map (fun r => r.emotion) := hdin0
      have hn : n = ((dayRows parseTs parseConf file td).map
          (fun r => r.emotion)).count d := hn0
      refine ⟨d, hd, hdin, ?_⟩
      intro e he
      have hcount : ((dayRows parseTs parseConf file td).map
          (fun r => r.emotion)).count e ≤ n := hge _ (mem_value_counts he)
      rw [hn] at hcount
      exact hcount
    · intro e he
      show ((value_counts ((dayRows parseTs parseConf file td).map
          (fun r => r.emotion))).map (fun p => (p.1, (p.2 : ℚ) /
            (((((value_counts ((dayRows parseTs parseConf file td).map
              (fun r => r.emotion))).map (fun p => p.2)).sum : ℕ)) : ℚ)))).lookup e
        = some ((((dayRows parseTs parseConf file td).map (fun r => r.emotion)).count e : ℚ)
            / ((dayRows parseTs parseConf file td).length : ℚ))
      rw [value_counts_total, List.length_map]
      exact lookup_distribution _ _ he

/-- C1 witness: on the three-entry log (confidences 0.5, 0.7, 0.9, all on
day 0), the summary has matching rows, three total scans, and an average
confidence of exactly 0.7. -/
theorem C1_get_daily_summary_witness :
    dayRows tsParse0 confParse0 file3 0 ≠ [] ∧
    (get_daily_summary tsParse0 confParse0 file3 0).total_scans
        = (dayRows tsParse0 confParse0 file3 0).length ∧
    get_daily_summary tsParse0 confParse0 file3 0
        = ⟨0, 3, some "happy", [("happy", 2/3), ("sad", 1/3)], some (7/10)⟩ ∧
    get_daily_summary tsParse0 confParse0 (some [headerLine]) 0
        = ⟨0, 0, none, [], none⟩ := by
  have hne : dayRows tsParse0 confParse0 file3 0 ≠ [] := by
    intro hc
    have := congrArg List.length hc
    rw [show (dayRows tsParse0 confParse0 file3 0).length = 3 from by
      with_unfolding_all rfl] at this
    simp at this
  refine ⟨hne, ((C1_get_daily_summary tsParse0 confParse0 file3 0).2 hne).1,
    by with_unfolding_all rfl,
    (C1_get_daily_summary tsParse0 confParse0 (some [headerLine]) 0).1
      (by with_unfolding_all rfl)⟩

end EmotionDetector
